import Mathlib

/-!
Verification of the real-time room coordination and call-session engine of
the LC_Ai backend (`src/server.js`), against its specification.

The JavaScript handlers are embedded shallowly:
- mongoose documents become Lean structures (`Room`, `Message`, `Member`,
  `Reaction`); nullable / possibly-absent fields become `Option String`
  (with `none` standing for the JS falsy values `null` / `undefined`);
- the stores become lists of documents, mutated by explicit state passing;
- JavaScript `Map`s (the in-memory `callSessions` table and each session's
  `participants` map) become association lists with `Map`-faithful
  `set` / `get` / `delete` operations (insertion order preserved, keys
  unique as long as only these operations are used);
- `socket.emit` / `io.to(room).emit` / `socket.to(room).emit` become values
  of explicit event datatypes collected in an output list.
-/

/-- A room member, as in the `memberSchema` of `models/Room.js`:
`{id, name, role}` with `id` an email, database id or `guest_<token>`. -/
structure Member where
  id : String
  name : String
  role : String
deriving Repr, DecidableEq

/-- A persisted room document (`models/Room.js`). `_id` is modelled as the
string `id`; `code`, `ownerId`, `inviteLinkId`, `inviteLink` are strings. -/
structure Room where
  id : String
  name : String
  code : String
  ownerId : String
  allowAI : Bool
  inviteLinkId : String
  inviteLink : String
  members : List Member
deriving Repr, DecidableEq

/-- A reaction subdocument (`reactionSchema` in `models/Message.js`). -/
structure Reaction where
  emoji : String
  userId : String
  displayName : String
deriving Repr, DecidableEq

/-- A persisted message document (`models/Message.js` together with the
fields written by the `send_message` handler). `senderUser` and
`senderGuestName` are nullable; `room` is the owning room's id. -/
structure Message where
  id : String
  room : String
  senderUser : Option String
  senderGuestName : Option String
  role : String
  content : String
  mediaUrl : Option String
  mediaType : Option String
  mediaName : Option String
  mimeType : Option String
  createdAt : String
  reactions : List Reaction
deriving Repr, DecidableEq

/-- The identity bound to a socket: `socket.data.userId` and
`socket.data.userEmail`, each possibly `null`. -/
structure SocketData where
  userId : Option String
  userEmail : Option String
deriving Repr, DecidableEq

/-! ### JavaScript `Map` as an association list -/

/-- Model of `Map.prototype.set`: update the entry in place when the key is
present (JS `Map` keys are unique and keep insertion order), otherwise
append at the end. -/
def mapSet {α : Type} : List (String × α) → String → α → List (String × α)
  | [], k, v => [(k, v)]
  | p :: rest, k, v =>
      if p.1 = k then (k, v) :: rest else p :: mapSet rest k v

/-- Model of `Map.prototype.get` (returning `undefined` as `none`). -/
def mapGet {α : Type} : List (String × α) → String → Option α
  | [], _ => none
  | p :: rest, k => if p.1 = k then some p.2 else mapGet rest k

/-- Model of `Map.prototype.delete`. -/
def mapDelete {α : Type} : List (String × α) → String → List (String × α)
  | [], _ => []
  | p :: rest, k =>
      if p.1 = k then mapDelete rest k else p :: mapDelete rest k

/-! ### VisibilityFilter: `filterRoomsForSocket` (server.js 169–190) -/

/-- The per-room visibility test inside `filterRoomsForSocket`:
owner by email, owner by (stringified) userId, or member by userId/email
among the stringified `members[].id`. -/
def roomVisibleTo (s : SocketData) (room : Room) : Bool :=
  let memberIds := room.members.map (fun m => m.id)
  let isOwnerByEmail := match s.userEmail with
    | some e => room.ownerId == e
    | none => false
  let isOwnerById := match s.userId with
    | some u => room.ownerId == u
    | none => false
  let isMemberByUserId := match s.userId with
    | some u => memberIds.contains u
    | none => false
  let isMemberByEmail := match s.userEmail with
    | some e => memberIds.contains e
    | none => false
  isOwnerByEmail || isOwnerById || isMemberByUserId || isMemberByEmail

/-- The function `filterRoomsForSocket(allRooms, socket)`: the empty list when the
socket has neither email nor userId, else the rooms passing
`roomVisibleTo`. -/
def filterRoomsForSocket (allRooms : List Room) (s : SocketData) :
    List Room :=
  if s.userEmail.isNone && s.userId.isNone then []
  else allRooms.filter (roomVisibleTo s)

/-- C1. For every list of rooms and identity, a room is in the output of
`filterRoomsForSocket` iff it is among the input rooms and the identity's
email equals its `ownerId`, or the identity's userId equals its `ownerId`,
or the identity's userId or email appears among its members' ids; and the
identity with neither userId nor email sees the empty list. -/
theorem filterRoomsForSocket_spec (rooms : List Room) (s : SocketData)
    (r : Room) :
    (r ∈ filterRoomsForSocket rooms s ↔
      r ∈ rooms ∧
        ((∃ e, s.userEmail = some e ∧ r.ownerId = e) ∨
         (∃ u, s.userId = some u ∧ r.ownerId = u) ∨
         (∃ u, s.userId = some u ∧ u ∈ r.members.map (fun m => m.id)) ∨
         (∃ e, s.userEmail = some e ∧ e ∈ r.members.map (fun m => m.id)))) ∧
    filterRoomsForSocket rooms ⟨none, none⟩ = [] := by
  constructor
  · unfold filterRoomsForSocket
    rcases hu : s.userId with _ | u <;> rcases he : s.userEmail with _ | e <;>
      simp [roomVisibleTo, hu, he, List.mem_filter, and_comm] <;>
      · intro _
        constructor <;> intro h <;>
          simpa [eq_comm, or_comm, or_assoc, or_left_comm] using h
  · simp [filterRoomsForSocket]

/-! ### CallSessionManager: `callSessions`, `join_call`, `handleLeaveCall`,
`disconnect` (server.js 111–112, 142–164, 686–748) -/

/-- An in-memory call session (server.js 693–698): `participants` is a JS
`Map` from socket id to display name; `startedAt` is an abstract clock
value. -/
structure CallSession where
  startedBy : String
  startedAt : Nat
  maxParticipants : Nat
  participants : List (String × String)
deriving Repr, DecidableEq

/-- The in-memory `callSessions` table: a JS `Map` from room key to
session. -/
def CallSessions : Type := List (String × CallSession)

/-- Events emitted by the call-session handlers. Each broadcast records
its audience: `toSocket` events go to one socket, the others go to the
socket room, `excluding` the named socket where the code uses
`socket.to(roomKey)` rather than `io.to(roomKey)`. -/
inductive CallEv where
  | callStarted (roomId startedBy excluding : String)
  | existingPeers (toSocket roomId : String)
      (peers : List (String × String)) (participantCount : Nat)
  | userJoinedCall (roomId excluding peerId name : String)
      (participantCount : Nat)
  | userLeftCall (roomId excluding peerId name : String)
      (participantCount : Nat)
  | callEnded (roomId : String)
deriving Repr, DecidableEq

/-- The `join_call` handler (server.js 686–726). `now` stands for the
`new Date()` read; a falsy (empty) `roomId` is a no-op. The source has one
shared tail after the `if (!session)` creation; the two branches of the
session lookup are inlined here with that tail duplicated verbatim. -/
def join_call (sessions : CallSessions) (roomKey sockId : String)
    (displayName : Option String) (now : Nat) :
    CallSessions × List CallEv :=
  if roomKey = "" then (sessions, [])
  else
    let name := displayName.getD "User"
    match mapGet sessions roomKey with
    | some base =>
        let participants := mapSet base.participants sockId name
        let session : CallSession :=
          { base with
            participants := participants
            maxParticipants := max base.maxParticipants participants.length }
        let peers := participants.filter (fun p => p.1 != sockId)
        (mapSet sessions roomKey session,
         [CallEv.existingPeers sockId roomKey peers participants.length,
          CallEv.userJoinedCall roomKey sockId sockId name
            participants.length])
    | none =>
        let participants := mapSet ([] : List (String × String)) sockId name
        let session : CallSession :=
          { startedBy := name, startedAt := now
            maxParticipants := max 0 participants.length
            participants := participants }
        let peers := participants.filter (fun p => p.1 != sockId)
        (mapSet sessions roomKey session,
         [CallEv.callStarted roomKey name sockId,
          CallEv.existingPeers sockId roomKey peers participants.length,
          CallEv.userJoinedCall roomKey sockId sockId name
            participants.length])

/-- The helper `handleLeaveCall(io, rawRoomId, socket)` (server.js 142–164). -/
def handleLeaveCall (sessions : CallSessions) (roomKey sockId : String) :
    CallSessions × List CallEv :=
  match mapGet sessions roomKey with
  | none => (sessions, [])
  | some session =>
    match mapGet session.participants sockId with
    | none => (sessions, [])
    | some name =>
      let participants := mapDelete session.participants sockId
      let participantCount := participants.length
      let leftEv :=
        CallEv.userLeftCall roomKey sockId sockId name participantCount
      if participantCount = 0 then
        (mapDelete sessions roomKey, [leftEv, CallEv.callEnded roomKey])
      else
        (mapSet sessions roomKey { session with participants := participants },
         [leftEv])

/-- The call-session part of the `disconnect` handler (server.js 746–747):
`handleLeaveCall` for every room key in the table. -/
def disconnectCalls (sessions : CallSessions) (sockId : String) :
    CallSessions × List CallEv :=
  (sessions.map (fun p => p.1)).foldl
    (fun acc roomKey =>
      let r := handleLeaveCall acc.1 roomKey sockId
      (r.1, acc.2 ++ r.2))
    (sessions, [])

/-- One inbound call-session operation. -/
inductive CallOp where
  | join (roomId sockId : String) (displayName : Option String) (now : Nat)
  | leave (roomId sockId : String)
  | disconnect (sockId : String)
deriving Repr, DecidableEq

/-- Dispatch one operation against the session table. -/
def callStep (sessions : CallSessions) : CallOp → CallSessions × List CallEv
  | CallOp.join roomId sockId displayName now =>
      join_call sessions roomId sockId displayName now
  | CallOp.leave roomId sockId => handleLeaveCall sessions roomId sockId
  | CallOp.disconnect sockId => disconnectCalls sessions sockId

/-- Run a sequence of operations from the empty table (server start). -/
def runCalls (ops : List CallOp) : CallSessions :=
  ops.foldl (fun sessions op => (callStep sessions op).1) ([] : CallSessions)

/-- The participant count of a room's session, `0` when absent. -/
def participantCount (sessions : CallSessions) (roomKey : String) : Nat :=
  match mapGet sessions roomKey with
  | some s => s.participants.length
  | none => 0

/-! ### Association-list lemmas -/

theorem mapGet_mapSet_self {α : Type} (m : List (String × α)) (k : String)
    (v : α) : mapGet (mapSet m k v) k = some v := by
  induction m with
  | nil => simp [mapSet, mapGet]
  | cons p rest ih =>
      by_cases h : p.1 = k
      · simp [mapSet, mapGet, h]
      · simp [mapSet, mapGet, h, ih]

theorem mapGet_mapSet_ne {α : Type} (m : List (String × α)) (k k' : String)
    (v : α) (h : k' ≠ k) : mapGet (mapSet m k v) k' = mapGet m k' := by
  induction m with
  | nil => simp [mapSet, mapGet, Ne.symm h]
  | cons p rest ih =>
      by_cases hp : p.1 = k
      · simp [mapSet, mapGet, hp, Ne.symm h, h]
      · by_cases hp' : p.1 = k'
        · simp [mapSet, mapGet, hp, hp', h, Ne.symm h]
        · simp [mapSet, mapGet, hp, hp', ih]

theorem mapSet_ne_nil {α : Type} (m : List (String × α)) (k : String)
    (v : α) : mapSet m k v ≠ [] := by
  cases m with
  | nil => simp [mapSet]
  | cons p rest =>
      by_cases h : p.1 = k <;> simp [mapSet, h]

theorem mapGet_mapDelete_self {α : Type} (m : List (String × α))
    (k : String) : mapGet (mapDelete m k) k = none := by
  induction m with
  | nil => simp [mapDelete, mapGet]
  | cons p rest ih =>
      by_cases h : p.1 = k
      · simpa [mapDelete, mapGet, h] using ih
      · simpa [mapDelete, mapGet, h] using ih

theorem mapGet_mapDelete_ne {α : Type} (m : List (String × α))
    (k k' : String) (h : k' ≠ k) :
    mapGet (mapDelete m k) k' = mapGet m k' := by
  induction m with
  | nil => simp [mapDelete, mapGet]
  | cons p rest ih =>
      by_cases hp : p.1 = k
      · have hp' : p.1 ≠ k' := by rw [hp]; exact Ne.symm h
        simpa [mapDelete, mapGet, hp, hp', h, Ne.symm h] using ih
      · by_cases hp' : p.1 = k'
        · simp [mapDelete, mapGet, hp, hp', h, Ne.symm h]
        · simpa [mapDelete, mapGet, hp, hp'] using ih

/-! ### The call-session invariant -/

/-- Every session stored in the table has a non-empty participants map. -/
def SessionsWf (sessions : CallSessions) : Prop :=
  ∀ roomKey s, mapGet sessions roomKey = some s → s.participants ≠ []

theorem sessionsWf_nil : SessionsWf ([] : CallSessions) := by
  intro roomKey s h
  simp [mapGet] at h

theorem sessionsWf_join (sessions : CallSessions) (roomKey sockId : String)
    (dn : Option String) (now : Nat) (hwf : SessionsWf sessions) :
    SessionsWf (join_call sessions roomKey sockId dn now).1 := by
  by_cases hk : roomKey = ""
  · simpa [join_call, hk] using hwf
  · intro k s hk'
    rcases hget : mapGet sessions roomKey with _ | base <;>
      simp only [join_call, if_neg hk, hget] at hk' <;>
      · by_cases hkk : k = roomKey
        · subst hkk
          rw [mapGet_mapSet_self] at hk'
          cases hk'
          exact mapSet_ne_nil _ _ _
        · rw [mapGet_mapSet_ne _ _ _ _ hkk] at hk'
          exact hwf k s hk'

theorem sessionsWf_leave (sessions : CallSessions) (roomKey sockId : String)
    (hwf : SessionsWf sessions) :
    SessionsWf (handleLeaveCall sessions roomKey sockId).1 := by
  intro k s hk
  rcases hget : mapGet sessions roomKey with _ | session
  · simp only [handleLeaveCall, hget] at hk
    exact hwf k s hk
  · rcases hpart : mapGet session.participants sockId with _ | name
    · simp only [handleLeaveCall, hget, hpart] at hk
      exact hwf k s hk
    · by_cases hzero : (mapDelete session.participants sockId).length = 0
      · simp only [handleLeaveCall, hget, hpart, if_pos hzero] at hk
        by_cases hkk : k = roomKey
        · subst hkk
          rw [mapGet_mapDelete_self] at hk
          cases hk
        · rw [mapGet_mapDelete_ne _ _ _ hkk] at hk
          exact hwf k s hk
      · simp only [handleLeaveCall, hget, hpart, if_neg hzero] at hk
        by_cases hkk : k = roomKey
        · subst hkk
          rw [mapGet_mapSet_self] at hk
          cases hk
          intro hnil
          exact hzero (by simp [show mapDelete session.participants sockId
            = [] from hnil])
        · rw [mapGet_mapSet_ne _ _ _ _ hkk] at hk
          exact hwf k s hk

theorem sessionsWf_foldl_leave (keys : List String) (sockId : String) :
    ∀ acc : CallSessions × List CallEv, SessionsWf acc.1 →
      SessionsWf ((keys.foldl
        (fun acc roomKey =>
          let r := handleLeaveCall acc.1 roomKey sockId
          (r.1, acc.2 ++ r.2)) acc).1) := by
  induction keys with
  | nil => intro acc h; simpa using h
  | cons key rest ih =>
      intro acc h
      exact ih _ (sessionsWf_leave acc.1 key sockId h)

theorem sessionsWf_disconnect (sessions : CallSessions) (sockId : String)
    (hwf : SessionsWf sessions) :
    SessionsWf (disconnectCalls sessions sockId).1 := by
  unfold disconnectCalls
  exact sessionsWf_foldl_leave _ _ _ hwf

theorem sessionsWf_step (sessions : CallSessions) (op : CallOp)
    (hwf : SessionsWf sessions) : SessionsWf (callStep sessions op).1 := by
  cases op with
  | join roomId sockId dn now => exact sessionsWf_join _ _ _ _ _ hwf
  | leave roomId sockId => exact sessionsWf_leave _ _ _ hwf
  | disconnect sockId => exact sessionsWf_disconnect _ _ hwf

theorem sessionsWf_runCalls (ops : List CallOp) :
    SessionsWf (runCalls ops) := by
  suffices h : ∀ sessions, SessionsWf sessions →
      SessionsWf (ops.foldl (fun s op => (callStep s op).1) sessions) by
    exact h [] sessionsWf_nil
  induction ops with
  | nil => intro s h; simpa using h
  | cons op rest ih =>
      intro s h
      exact ih _ (sessionsWf_step s op h)

/-- C2. Starting from the empty call-session table, after any sequence of
`join_call` / `leave_call` / `disconnect` operations a session exists for a
room iff its participants map is non-empty; moreover a leave step emits
`call_ended` to the room exactly once precisely when it deletes the
session entry (the instant the participant count reaches zero), and zero
times otherwise. -/
theorem callSession_exists_iff_participants (ops : List CallOp)
    (roomKey : String) :
    ((mapGet (runCalls ops) roomKey).isSome ↔
      0 < participantCount (runCalls ops) roomKey) ∧
    (∀ sockId,
      ((handleLeaveCall (runCalls ops) roomKey sockId).2.count
          (CallEv.callEnded roomKey)) =
        (if ((mapGet (runCalls ops) roomKey).isSome &&
            !((mapGet (handleLeaveCall (runCalls ops) roomKey sockId).1
                roomKey).isSome)) then 1 else 0)) := by
  have hwf := sessionsWf_runCalls ops
  constructor
  · rcases h : mapGet (runCalls ops) roomKey with _ | s
    · simp [participantCount, h]
    · simp only [participantCount, h, Option.isSome_some, true_iff]
      exact List.length_pos.mpr (hwf roomKey s h)
  · intro sockId
    rcases hget : mapGet (runCalls ops) roomKey with _ | session
    · simp [handleLeaveCall, hget]
    · rcases hpart : mapGet session.participants sockId with _ | name
      · simp [handleLeaveCall, hget, hpart]
      · by_cases hzero : mapDelete session.participants sockId = []
        · simp [handleLeaveCall, hget, hpart, hzero,
            mapGet_mapDelete_self, List.count_cons]
        · simp [handleLeaveCall, hget, hpart, hzero,
            mapGet_mapSet_self, List.count_cons]

/-- The participants map of a room's current session (empty when no
session exists): the observer used to state `join_call`'s contract. -/
def currentParticipants (sessions : CallSessions) (roomKey : String) :
    List (String × String) :=
  match mapGet sessions roomKey with
  | some s => s.participants
  | none => []

theorem filter_mapSet_self {α : Type} (m : List (String × α)) (k : String)
    (v : α) :
    (mapSet m k v).filter (fun p => p.1 != k) =
      m.filter (fun p => p.1 != k) := by
  induction m with
  | nil => simp [mapSet]
  | cons p rest ih =>
      by_cases h : p.1 = k
      · simp [mapSet, h]
      · simp [mapSet, h, ih]

/-- C7. For every `join_call` on a non-empty room key: the joiner gets a
single `existing_peers` event listing the session's current participants
minus itself (equivalently: the pre-join participants minus itself); the
room (excluding the joiner) gets a single `user_joined_call` carrying the
updated participant count; and `call_started` is emitted to the room
(excluding the joiner) exactly when no session previously existed. -/
theorem join_call_emissions (sessions : CallSessions)
    (roomKey sockId : String) (dn : Option String) (now : Nat)
    (hk : roomKey ≠ "") :
    ((join_call sessions roomKey sockId dn now).2 =
      (if (mapGet sessions roomKey).isSome then ([] : List CallEv)
       else [CallEv.callStarted roomKey (dn.getD "User") sockId]) ++
      [CallEv.existingPeers sockId roomKey
        ((mapSet (currentParticipants sessions roomKey) sockId
          (dn.getD "User")).filter (fun p => p.1 != sockId))
        (mapSet (currentParticipants sessions roomKey) sockId
          (dn.getD "User")).length,
       CallEv.userJoinedCall roomKey sockId sockId (dn.getD "User")
        (mapSet (currentParticipants sessions roomKey) sockId
          (dn.getD "User")).length]) ∧
    ((mapSet (currentParticipants sessions roomKey) sockId
        (dn.getD "User")).filter (fun p => p.1 != sockId) =
      (currentParticipants sessions roomKey).filter
        (fun p => p.1 != sockId)) := by
  constructor
  · rcases hget : mapGet sessions roomKey with _ | base <;>
      simp [join_call, currentParticipants, if_neg hk, hget]
  · exact filter_mapSet_self _ _ _

/-- Witness for C7: the spec's two-joiner scenario. Socket `sA` (name
"A") joins the empty table: it gets `call_started` broadcast to the rest
of the room, an empty peer list and participant count 1; then socket `sB`
(name "B") joins: it gets peer list `[("sA", "A")]` and the room gets
`user_joined_call` with participant count 2, and no second
`call_started`. -/
theorem join_call_emissions_witness :
    ((join_call [] "r1" "sA" (some "A") 0).2 =
      [CallEv.callStarted "r1" "A" "sA",
       CallEv.existingPeers "sA" "r1" [] 1,
       CallEv.userJoinedCall "r1" "sA" "sA" "A" 1]) ∧
    ((join_call (join_call [] "r1" "sA" (some "A") 0).1
        "r1" "sB" (some "B") 1).2 =
      [CallEv.existingPeers "sB" "r1" [("sA", "A")] 2,
       CallEv.userJoinedCall "r1" "sB" "sB" "B" 2]) := by
  have h1 := join_call_emissions [] "r1" "sA" (some "A") 0 (by decide)
  have h2 := join_call_emissions (join_call [] "r1" "sA" (some "A") 0).1
    "r1" "sB" (some "B") 1 (by decide)
  constructor
  · rw [h1.1]
    decide
  · rw [h2.1]
    decide

/-! ### MessageCoordinator: `delete_message` (server.js 562–645) -/

/-- The payload of a `delete_message` request (server.js 564–571), with
its defaults: every field other than `messageId` defaults to `null`. -/
structure DeletePayload where
  messageId : Option String
  requesterUserId : Option String
  requesterGuestName : Option String
  createdAt : Option String
  textSnippet : Option String
  roomId : Option String
deriving Repr, DecidableEq

/-- The ack results of `delete_message`. -/
inductive DeleteResult where
  | missingMessageId
  | messageNotFound
  | notAuthorized
  | okDeleted
deriving Repr, DecidableEq

/-- Events emitted by the message handlers. `receiveMessage` carries the
broadcast payload (server.js 531–543 and 549–558); absent fields are
`none`. -/
structure MessagePayload where
  id : String
  roomId : String
  text : String
  role : String
  senderUserId : Option String
  senderGuestName : Option String
  createdAt : String
  reactions : List Reaction
  mediaUrl : Option String
  mediaType : Option String
  mediaName : Option String
deriving Repr, DecidableEq

inductive MsgEv where
  | receiveMessage (roomId : String) (payload : MessagePayload)
  | messageDeleted (roomId messageId : String)
  | reactionUpdated (roomId messageId : String) (reactions : List Reaction)
deriving Repr, DecidableEq

/-- Lookup `Message.findById` over the modelled store. -/
def findMsg (msgs : List Message) (id : String) : Option Message :=
  msgs.find? (fun m => m.id == id)

/-- Lookup `Room.findById` over the modelled store. -/
def findRoom (rooms : List Room) (id : String) : Option Room :=
  rooms.find? (fun r => r.id == id)

/-- The `equals` helper of the `delete_message` handler (server.js 587):
both sides truthy and equal as strings. -/
def strEquals (a b : Option String) : Bool :=
  match a, b with
  | some x, some y => x == y
  | _, _ => false

/-- The authorization disjunction of `delete_message` (server.js
589–629): sender by bound userId, sender by payload userId, guest sender
by name (the createdAt/textSnippet check is dead — both branches allow),
or room owner by bound email / userId. -/
def deleteMessageAllowed (msg : Message) (room : Option Room)
    (sock : SocketData) (p : DeletePayload) : Bool :=
  let bySocketUser := strEquals msg.senderUser sock.userId
  let byPayloadUser := strEquals msg.senderUser p.requesterUserId
  let byGuestName := match p.requesterGuestName with
    | some g => msg.senderGuestName == some g
    | none => false
  let byOwner := match room with
    | some r =>
        (match sock.userEmail with
         | some e => r.ownerId == e
         | none => false) ||
        (match sock.userId with
         | some u => strEquals (some r.ownerId) (some u)
         | none => false)
    | none => false
  bySocketUser || byPayloadUser || byGuestName || byOwner

/-- The `delete_message` handler (server.js 562–645): look up the
message, resolve the owning room, check authorization, then delete the
document and broadcast `message_deleted` to the room. -/
def delete_message (msgs : List Message) (rooms : List Room)
    (sock : SocketData) (p : DeletePayload) :
    DeleteResult × List Message × List MsgEv :=
  match p.messageId with
  | none => (DeleteResult.missingMessageId, msgs, [])
  | some mid =>
    match findMsg msgs mid with
    | none => (DeleteResult.messageNotFound, msgs, [])
    | some msg =>
      let room := findRoom rooms msg.room
      if deleteMessageAllowed msg room sock p then
        (DeleteResult.okDeleted,
         msgs.filter (fun m => m.id != mid),
         [MsgEv.messageDeleted msg.room mid])
      else
        (DeleteResult.notAuthorized, msgs, [])

theorem strEquals_iff (a b : Option String) :
    strEquals a b = true ↔ ∃ x, a = some x ∧ b = some x := by
  rcases a with _ | x
  · simp [strEquals]
  · rcases b with _ | y
    · simp [strEquals]
    · simp only [strEquals, beq_iff_eq, Option.some.injEq]
      constructor
      · intro h
        exact ⟨y, h, rfl⟩
      · rintro ⟨z, h1, h2⟩
        rw [h1, h2]

/-- The authorization test of `delete_message`, characterized as the
disjunction the spec states. -/
theorem deleteMessageAllowed_iff (msg : Message) (room : Option Room)
    (sock : SocketData) (p : DeletePayload) :
    (deleteMessageAllowed msg room sock p = true) ↔
      ((∃ u, sock.userId = some u ∧ msg.senderUser = some u) ∨
       (∃ u, p.requesterUserId = some u ∧ msg.senderUser = some u) ∨
       (∃ g, p.requesterGuestName = some g ∧
          msg.senderGuestName = some g) ∨
       (∃ r, room = some r ∧
          ((∃ e, sock.userEmail = some e ∧ r.ownerId = e) ∨
           (∃ u, sock.userId = some u ∧ r.ownerId = u)))) := by
  have h1 : (strEquals msg.senderUser sock.userId = true) ↔
      (∃ u, sock.userId = some u ∧ msg.senderUser = some u) :=
    (strEquals_iff _ _).trans
      ⟨fun ⟨x, a, b⟩ => ⟨x, b, a⟩, fun ⟨x, a, b⟩ => ⟨x, b, a⟩⟩
  have h2 : (strEquals msg.senderUser p.requesterUserId = true) ↔
      (∃ u, p.requesterUserId = some u ∧ msg.senderUser = some u) :=
    (strEquals_iff _ _).trans
      ⟨fun ⟨x, a, b⟩ => ⟨x, b, a⟩, fun ⟨x, a, b⟩ => ⟨x, b, a⟩⟩
  have h3 : ((match p.requesterGuestName with
      | some g => msg.senderGuestName == some g
      | none => false) = true) ↔
      (∃ g, p.requesterGuestName = some g ∧
        msg.senderGuestName = some g) := by
    rcases p.requesterGuestName with _ | g <;> simp
  have h4 : ((match room with
      | some r =>
          (match sock.userEmail with
           | some e => r.ownerId == e
           | none => false) ||
          (match sock.userId with
           | some u => strEquals (some r.ownerId) (some u)
           | none => false)
      | none => false) = true) ↔
      (∃ r, room = some r ∧
        ((∃ e, sock.userEmail = some e ∧ r.ownerId = e) ∨
         (∃ u, sock.userId = some u ∧ r.ownerId = u))) := by
    rcases room with _ | r
    · simp
    · simp only [Option.some.injEq, exists_eq_left']
      rcases sock.userEmail with _ | e <;>
        rcases sock.userId with _ | u <;>
        simp [strEquals]
  simp only [deleteMessageAllowed, Bool.or_eq_true]
  rw [h1, h2, h3, h4, or_assoc, or_assoc]

/-- C3. For an existing message, `delete_message` succeeds iff the
requester's bound userId equals the message's `senderUser`, or the
payload's `requesterUserId` equals `senderUser`, or the payload's
`requesterGuestName` equals `senderGuestName`, or the requester's bound
email or userId matches the owning room's `ownerId`. On success the
message is removed from the store and a deletion event is broadcast to
the room; otherwise the reply is `NOT_AUTHORIZED` and nothing is mutated
or broadcast; for an absent message the reply is `MESSAGE_NOT_FOUND` with
no mutation. -/
theorem delete_message_spec (msgs : List Message) (rooms : List Room)
    (sock : SocketData) (p : DeletePayload) (mid : String)
    (hmid : p.messageId = some mid) :
    (∀ msg, findMsg msgs mid = some msg →
      (((delete_message msgs rooms sock p).1 = DeleteResult.okDeleted ↔
        ((∃ u, sock.userId = some u ∧ msg.senderUser = some u) ∨
         (∃ u, p.requesterUserId = some u ∧ msg.senderUser = some u) ∨
         (∃ g, p.requesterGuestName = some g ∧
            msg.senderGuestName = some g) ∨
         (∃ r, findRoom rooms msg.room = some r ∧
            ((∃ e, sock.userEmail = some e ∧ r.ownerId = e) ∨
             (∃ u, sock.userId = some u ∧ r.ownerId = u))))) ∧
       ((delete_message msgs rooms sock p).1 = DeleteResult.okDeleted →
         (delete_message msgs rooms sock p).2.1 =
           msgs.filter (fun m => m.id != mid) ∧
         (delete_message msgs rooms sock p).2.2 =
           [MsgEv.messageDeleted msg.room mid]) ∧
       ((delete_message msgs rooms sock p).1 =
           DeleteResult.notAuthorized →
         (delete_message msgs rooms sock p).2.1 = msgs ∧
         (delete_message msgs rooms sock p).2.2 = []))) ∧
    (findMsg msgs mid = none →
      (delete_message msgs rooms sock p).1 =
          DeleteResult.messageNotFound ∧
        (delete_message msgs rooms sock p).2.1 = msgs ∧
        (delete_message msgs rooms sock p).2.2 = []) := by
  constructor
  · intro msg hfind
    have hiff := deleteMessageAllowed_iff msg (findRoom rooms msg.room)
      sock p
    by_cases hallow :
        deleteMessageAllowed msg (findRoom rooms msg.room) sock p = true
    · refine ⟨?_, ?_, ?_⟩
      · simp only [delete_message, hmid, hfind, if_pos hallow]
        exact ⟨fun _ => hiff.mp hallow, fun _ => trivial⟩
      · intro _
        simp [delete_message, hmid, hfind, if_pos hallow]
      · intro hcontra
        simp [delete_message, hmid, hfind, if_pos hallow] at hcontra
    · refine ⟨?_, ?_, ?_⟩
      · simp only [delete_message, hmid, hfind, if_neg hallow]
        constructor
        · intro hcontra
          cases hcontra
        · intro hdisj
          exact absurd (hiff.mpr hdisj) hallow
      · intro hcontra
        simp [delete_message, hmid, hfind, if_neg hallow] at hcontra
      · intro _
        simp [delete_message, hmid, hfind, if_neg hallow]
  · intro hnone
    simp [delete_message, hmid, hnone]

/-- Witness for C3: a room owner (bound email "own@x") deletes a guest's
message in their room; the store loses the message and the deletion is
broadcast. -/
theorem delete_message_spec_witness :
    (delete_message
        [⟨"m1", "r1", none, some "G", "user", "hi", none, none, none,
          none, "t0", []⟩]
        [⟨"r1", "room", "42", "own@x", true, "il", "il", []⟩]
        ⟨none, some "own@x"⟩
        ⟨some "m1", none, none, none, none, none⟩).1 =
      DeleteResult.okDeleted ∧
    (delete_message
        [⟨"m1", "r1", none, some "G", "user", "hi", none, none, none,
          none, "t0", []⟩]
        [⟨"r1", "room", "42", "own@x", true, "il", "il", []⟩]
        ⟨none, some "own@x"⟩
        ⟨some "m1", none, none, none, none, none⟩).2.1 = [] := by
  have h := delete_message_spec
    [⟨"m1", "r1", none, some "G", "user", "hi", none, none, none,
      none, "t0", []⟩]
    [⟨"r1", "room", "42", "own@x", true, "il", "il", []⟩]
    ⟨none, some "own@x"⟩
    ⟨some "m1", none, none, none, none, none⟩
    "m1" rfl
  have hfind : findMsg
      [⟨"m1", "r1", none, some "G", "user", "hi", none, none, none,
        none, "t0", []⟩] "m1" =
      some ⟨"m1", "r1", none, some "G", "user", "hi", none, none, none,
        none, "t0", []⟩ := by decide
  have hok := (h.1 _ hfind).1.mpr
    (Or.inr (Or.inr (Or.inr
      ⟨⟨"r1", "room", "42", "own@x", true, "il", "il", []⟩, by decide,
        Or.inl ⟨"own@x", by decide, by decide⟩⟩)))
  refine ⟨hok, ?_⟩
  have hmut := (h.1 _ hfind).2.1 hok
  rw [hmut.1]
  decide

/-! ### RoomMutationCoordinator: `create_room` (server.js 245–287) -/

/-- The draft sent by the client with `create_room` (server.js 245,
269–277): `ownerId`, `inviteLinkId`, `inviteLink` and `members` may be
absent. -/
structure RoomDraft where
  name : String
  code : String
  ownerId : Option String
  allowAI : Bool
  inviteLinkId : Option String
  inviteLink : Option String
  members : Option (List Member)
deriving Repr, DecidableEq

/-- The outcomes of `create_room` (the `room_create_failed` reasons, plus
success). -/
inductive CreateResult where
  | missingOwner
  | limitReached
  | created
deriving Repr, DecidableEq

/-- The `create_room` handler (server.js 245–287). `freshId` models the
store-assigned `_id`; `freshInvite` models the random invite-link id
generated when the draft carries none. `countDocuments({ownerId})` is the
filter on the modelled store. -/
def create_room (store : List Room) (freshId freshInvite : String)
    (d : RoomDraft) : CreateResult × List Room :=
  match d.ownerId with
  | none => (CreateResult.missingOwner, store)
  | some owner =>
    if 5 ≤ (store.filter (fun r => r.ownerId == owner)).length then
      (CreateResult.limitReached, store)
    else
      let inviteLinkId := d.inviteLinkId.getD freshInvite
      (CreateResult.created,
       store ++
         [{ id := freshId, name := d.name, code := d.code
            ownerId := owner, allowAI := d.allowAI
            inviteLinkId := inviteLinkId
            inviteLink := d.inviteLink.getD inviteLinkId
            members := d.members.getD [] }])

/-- C4. `create_room` fails with `LIMIT_REACHED` iff the store already
holds at least 5 rooms with the requesting owner's id, and then the store
is unchanged; with a missing owner id it fails with `MISSING_OWNER` and
persists nothing. -/
theorem create_room_limit (store : List Room) (freshId freshInvite : String)
    (d : RoomDraft) :
    (∀ owner, d.ownerId = some owner →
      (((create_room store freshId freshInvite d).1 =
          CreateResult.limitReached ↔
        5 ≤ (store.filter (fun r => r.ownerId == owner)).length) ∧
       ((create_room store freshId freshInvite d).1 =
          CreateResult.limitReached →
        (create_room store freshId freshInvite d).2 = store))) ∧
    (d.ownerId = none →
      (create_room store freshId freshInvite d).1 =
          CreateResult.missingOwner ∧
        (create_room store freshId freshInvite d).2 = store) := by
  constructor
  · intro owner hown
    by_cases hcnt : 5 ≤ (store.filter (fun r => r.ownerId == owner)).length
    · constructor
      · simp only [create_room, hown, if_pos hcnt]
        exact iff_of_true trivial hcnt
      · intro _
        simp [create_room, hown, if_pos hcnt]
    · constructor
      · simp only [create_room, hown, if_neg hcnt]
        constructor
        · intro hcontra
          cases hcontra
        · intro h
          exact absurd h hcnt
      · intro hcontra
        simp [create_room, hown, if_neg hcnt] at hcontra
  · intro hown
    simp [create_room, hown]

/-- Witness for C4: an owner "o" with exactly 5 rooms gets
`LIMIT_REACHED` and the store stays those 5 rooms; a draft without owner
gets `MISSING_OWNER`. -/
theorem create_room_limit_witness :
    ((create_room
        [⟨"1", "a", "c1", "o", true, "i", "i", []⟩,
         ⟨"2", "b", "c2", "o", true, "i", "i", []⟩,
         ⟨"3", "c", "c3", "o", true, "i", "i", []⟩,
         ⟨"4", "d", "c4", "o", true, "i", "i", []⟩,
         ⟨"5", "e", "c5", "o", true, "i", "i", []⟩]
        "6" "inv" ⟨"f", "c6", some "o", true, none, none, none⟩).1 =
      CreateResult.limitReached) ∧
    ((create_room
        [⟨"1", "a", "c1", "o", true, "i", "i", []⟩,
         ⟨"2", "b", "c2", "o", true, "i", "i", []⟩,
         ⟨"3", "c", "c3", "o", true, "i", "i", []⟩,
         ⟨"4", "d", "c4", "o", true, "i", "i", []⟩,
         ⟨"5", "e", "c5", "o", true, "i", "i", []⟩]
        "6" "inv" ⟨"f", "c6", some "o", true, none, none, none⟩).2 =
      [⟨"1", "a", "c1", "o", true, "i", "i", []⟩,
       ⟨"2", "b", "c2", "o", true, "i", "i", []⟩,
       ⟨"3", "c", "c3", "o", true, "i", "i", []⟩,
       ⟨"4", "d", "c4", "o", true, "i", "i", []⟩,
       ⟨"5", "e", "c5", "o", true, "i", "i", []⟩]) ∧
    ((create_room [] "1" "inv"
        ⟨"f", "c6", none, true, none, none, none⟩).1 =
      CreateResult.missingOwner) := by
  have h := create_room_limit
    [⟨"1", "a", "c1", "o", true, "i", "i", []⟩,
     ⟨"2", "b", "c2", "o", true, "i", "i", []⟩,
     ⟨"3", "c", "c3", "o", true, "i", "i", []⟩,
     ⟨"4", "d", "c4", "o", true, "i", "i", []⟩,
     ⟨"5", "e", "c5", "o", true, "i", "i", []⟩]
    "6" "inv" ⟨"f", "c6", some "o", true, none, none, none⟩
  have hm := create_room_limit [] "1" "inv"
    ⟨"f", "c6", none, true, none, none, none⟩
  have hfail := (h.1 "o" rfl).1.mpr (by decide)
  exact ⟨hfail, (h.1 "o" rfl).2 hfail, (hm.2 rfl).1⟩

/-! ### MessageCoordinator: the reaction toggle of `addReaction`
(server.js 653–683) -/

/-- JS `Array.prototype.findIndex`, with `-1` rendered as `none`. -/
def findIndexP {α : Type} (p : α → Bool) : List α → Option Nat
  | [] => none
  | a :: t => if p a then some 0 else (findIndexP p t).map (fun i => i + 1)

/-- The reaction toggle inside the `addReaction` handler (server.js
661–672), acting on the message's `reactions` array: `findIndex` of the
same `(userId, emoji)` followed by `splice(i, 1)` when found; otherwise
`filter` out all of the user's reactions and `push` the new one. -/
def addReactionToList (reactions : List Reaction)
    (emoji userId displayName : String) : List Reaction :=
  match findIndexP
      (fun r => r.userId == userId && r.emoji == emoji) reactions with
  | some i => reactions.eraseIdx i
  | none =>
      (reactions.filter (fun r => r.userId != userId)) ++
        [⟨emoji, userId, displayName⟩]

theorem findIndexP_eq_none {α : Type} (p : α → Bool) (l : List α)
    (h : ∀ x ∈ l, ¬ p x = true) : findIndexP p l = none := by
  induction l with
  | nil => rfl
  | cons a t ih =>
      have ha : ¬ p a = true := h a (by simp)
      simp [findIndexP, ha, ih (fun x hx => h x (by simp [hx]))]

theorem addReactionToList_cons_ne (r : Reaction) (t : List Reaction)
    (e u d : String) (h : ¬ r.userId = u) :
    addReactionToList (r :: t) e u d = r :: addReactionToList t e u d := by
  have hp : ((r.userId == u) && (r.emoji == e)) = false := by
    simp [h]
  rcases hfind : findIndexP
      (fun x => x.userId == u && x.emoji == e) t with _ | i
  · simp [addReactionToList, findIndexP, hp, hfind, h]
  · simp [addReactionToList, findIndexP, hp, hfind, List.eraseIdx]

theorem addReaction_involutive_of_absent (rs : List Reaction)
    (e u d : String) (h : ∀ r ∈ rs, r.userId ≠ u) :
    addReactionToList (addReactionToList rs e u d) e u d = rs := by
  induction rs with
  | nil => simp [addReactionToList, findIndexP, List.eraseIdx]
  | cons r t ih =>
      have hr : ¬ r.userId = u := h r (by simp)
      have ht : ∀ x ∈ t, x.userId ≠ u := fun x hx => h x (by simp [hx])
      rw [addReactionToList_cons_ne r t e u d hr,
        addReactionToList_cons_ne r _ e u d hr, ih ht]

theorem addReaction_replaces (rs : List Reaction) (e u d : String)
    (r0 : Reaction) (hwf : rs.Pairwise (fun a b => a.userId ≠ b.userId))
    (hmem : r0 ∈ rs) (hu : r0.userId = u) (hne : r0.emoji ≠ e) :
    addReactionToList rs e u d =
      rs.filter (fun r => r.userId != u) ++ [⟨e, u, d⟩] := by
  have hsym : Symmetric (fun a b : Reaction => a.userId ≠ b.userId) :=
    fun a b hab => Ne.symm hab
  have hnone : findIndexP
      (fun x => x.userId == u && x.emoji == e) rs = none := by
    apply findIndexP_eq_none
    intro x hx hpx
    simp only [Bool.and_eq_true, beq_iff_eq] at hpx
    by_cases hxr : x = r0
    · subst hxr
      exact hne hpx.2
    · exact List.Pairwise.forall hsym hwf hx hmem hxr
        (by rw [hpx.1, hu])
  simp [addReactionToList, hnone]

theorem addReaction_pairwise (rs : List Reaction) (e u d : String)
    (hwf : rs.Pairwise (fun a b => a.userId ≠ b.userId)) :
    (addReactionToList rs e u d).Pairwise
      (fun a b => a.userId ≠ b.userId) := by
  rcases hfind : findIndexP
      (fun x => x.userId == u && x.emoji == e) rs with _ | i
  · simp only [addReactionToList, hfind]
    rw [List.pairwise_append]
    refine ⟨hwf.sublist (List.filter_sublist rs), by simp, ?_⟩
    intro a ha b hb
    simp only [List.mem_singleton] at hb
    subst hb
    have := (List.mem_filter.mp ha).2
    simpa using this
  · simp only [addReactionToList, hfind]
    exact hwf.sublist (List.eraseIdx_sublist rs i)

/-- Counterexample to C5 as stated: for a user holding a reaction with a
different emoji, toggling the new emoji twice does not return the list to
its original state — the user's old reaction is destroyed. -/
theorem addReaction_double_not_id :
    addReactionToList
        (addReactionToList [⟨"x", "u", "d"⟩] "y" "u" "d") "y" "u" "d" ≠
      [⟨"x", "u", "d"⟩] := by
  decide

/-- C5 (amended). Toggling the same `(userId, emoji)` twice in a row
restores the original reaction list provided the user held no reaction on
the message beforehand; toggling a different emoji for a user who already
has a reaction replaces that user's entry (never adding a second one);
and one application preserves the at-most-one-reaction-per-user
invariant, so any sequence of `addReaction` operations from the schema's
empty default keeps at most one reaction per (message, userId). -/
theorem addReaction_toggle_spec (rs : List Reaction) (e u d : String) :
    ((∀ r ∈ rs, r.userId ≠ u) →
      addReactionToList (addReactionToList rs e u d) e u d = rs) ∧
    (∀ r0 ∈ rs, rs.Pairwise (fun a b => a.userId ≠ b.userId) →
      r0.userId = u → r0.emoji ≠ e →
      addReactionToList rs e u d =
        rs.filter (fun r => r.userId != u) ++ [⟨e, u, d⟩]) ∧
    (rs.Pairwise (fun a b => a.userId ≠ b.userId) →
      (addReactionToList rs e u d).Pairwise
        (fun a b => a.userId ≠ b.userId)) :=
  ⟨fun h => addReaction_involutive_of_absent rs e u d h,
   fun r0 hmem hwf hu hne => addReaction_replaces rs e u d r0 hwf hmem hu hne,
   fun hwf => addReaction_pairwise rs e u d hwf⟩

/-- Witness for the amended C5: toggling "y" twice for user "u" over a
list holding only user "v"'s reaction restores it; toggling "y" for a
user holding an "x" reaction replaces the entry; the result keeps the
one-per-user invariant. -/
theorem addReaction_toggle_spec_witness :
    (addReactionToList
        (addReactionToList [⟨"x", "v", "dv"⟩] "y" "u" "d") "y" "u" "d" =
      [⟨"x", "v", "dv"⟩]) ∧
    (addReactionToList [⟨"x", "u", "d0"⟩] "y" "u" "d" =
      [⟨"y", "u", "d"⟩]) ∧
    ((addReactionToList [⟨"x", "u", "d0"⟩] "y" "u" "d").Pairwise
      (fun a b => a.userId ≠ b.userId)) := by
  have h := addReaction_toggle_spec [⟨"x", "v", "dv"⟩] "y" "u" "d"
  have h2 := addReaction_toggle_spec [⟨"x", "u", "d0"⟩] "y" "u" "d"
  refine ⟨h.1 (by decide), ?_, h2.2.2 (by simp)⟩
  have := h2.2.1 ⟨"x", "u", "d0"⟩ (by decide) (by simp) (by decide)
    (by decide)
  simpa using this

/-! ### MessageCoordinator: `send_message` (server.js 514–560) -/

/-- The payload of `send_message`. The handler reads `roomId`,
`senderUserId`, `senderGuestName`, `role`, `text` and the media fields;
`timestamp` models a client-supplied timestamp field, which the handler
never reads. -/
structure SendData where
  roomId : String
  senderUserId : Option String
  senderGuestName : Option String
  role : Option String
  text : Option String
  timestamp : Option String
  mediaUrl : Option String
  mediaType : Option String
  mediaName : Option String
  mimeType : Option String
deriving Repr, DecidableEq

/-- The outcome of `Message.create`: the stored document's assigned `_id`
and `createdAt` timestamp, or a thrown error. -/
inductive PersistOutcome where
  | ok (assignedId createdAt : String)
  | failure
deriving Repr, DecidableEq

/-- The `send_message` handler (server.js 514–560). On success the
persisted document is broadcast; in the catch block (546–559) an
ephemeral payload is broadcast instead, with `_id` built from
`Date.now()` (modelled by `nowMs`) and `createdAt` from
`new Date().toISOString()` (modelled by `nowIso`); nothing is stored. -/
def send_message (msgs : List Message) (d : SendData)
    (outcome : PersistOutcome) (nowMs : Nat) (nowIso : String) :
    List Message × List MsgEv :=
  if d.roomId = "" then (msgs, [])
  else
    match outcome with
    | PersistOutcome.ok assignedId createdAt =>
        let saved : Message :=
          { id := assignedId, room := d.roomId
            senderUser := d.senderUserId
            senderGuestName := d.senderGuestName
            role := d.role.getD "user"
            content := d.text.getD ""
            mediaUrl := d.mediaUrl, mediaType := d.mediaType
            mediaName := d.mediaName, mimeType := d.mimeType
            createdAt := createdAt, reactions := [] }
        (msgs ++ [saved],
         [MsgEv.receiveMessage d.roomId
           { id := assignedId, roomId := d.roomId
             text := saved.content, role := saved.role
             senderUserId := saved.senderUser
             senderGuestName := saved.senderGuestName
             createdAt := createdAt, reactions := []
             mediaUrl := saved.mediaUrl, mediaType := saved.mediaType
             mediaName := saved.mediaName }])
    | PersistOutcome.failure =>
        (msgs,
         [MsgEv.receiveMessage d.roomId
           { id := "temp-" ++ toString nowMs, roomId := d.roomId
             text := d.text.getD "", role := d.role.getD "user"
             senderUserId := none, senderGuestName := none
             createdAt := nowIso, reactions := []
             mediaUrl := d.mediaUrl, mediaType := none
             mediaName := d.mediaName }])

/-- Counterexample to C6 as stated: on persistence failure the broadcast
ephemeral message carries the server-synthesized timestamp, not the
client-supplied one — the payload's timestamp "CLIENT-TS" is ignored and
the emitted `createdAt` is the server's "SERVER-TS". -/
theorem send_message_timestamp_counterexample :
    ((send_message []
        ⟨"r1", none, some "G", some "user", some "hi", some "CLIENT-TS",
          none, none, none, none⟩
        PersistOutcome.failure 5 "SERVER-TS").2 =
      [MsgEv.receiveMessage "r1"
        { id := "temp-5", roomId := "r1", text := "hi", role := "user"
          senderUserId := none, senderGuestName := none
          createdAt := "SERVER-TS", reactions := []
          mediaUrl := none, mediaType := none, mediaName := none }]) ∧
    ("SERVER-TS" : String) ≠ "CLIENT-TS" := by
  constructor
  · decide
  · decide

/-- C6 (amended). When persistence fails, `send_message` reports no error
to the caller: no row is stored, and exactly one `receive_message` is
still broadcast to the room, carrying a synthesized ephemeral message
whose id is `temp-<now>` — distinct from every id not of that shape, so
distinguishable from persisted ids — and whose timestamp is
server-generated at failure time (the client-supplied timestamp is
ignored). -/
theorem send_message_failure_spec (msgs : List Message) (d : SendData)
    (nowMs : Nat) (nowIso : String) (hroom : d.roomId ≠ "") :
    ((send_message msgs d PersistOutcome.failure nowMs nowIso).1 =
      msgs) ∧
    ((send_message msgs d PersistOutcome.failure nowMs nowIso).2 =
      [MsgEv.receiveMessage d.roomId
        { id := "temp-" ++ toString nowMs, roomId := d.roomId
          text := d.text.getD "", role := d.role.getD "user"
          senderUserId := none, senderGuestName := none
          createdAt := nowIso, reactions := []
          mediaUrl := d.mediaUrl, mediaType := none
          mediaName := d.mediaName }]) ∧
    (∀ aid : String, (∀ s, aid ≠ "temp-" ++ s) →
      "temp-" ++ toString nowMs ≠ aid) := by
  refine ⟨?_, ?_, ?_⟩
  · simp [send_message, hroom]
  · simp [send_message, hroom]
  · intro aid h heq
    exact h (toString nowMs) heq.symm

/-- Witness for the amended C6: concrete failing send into room "r1" at
server time 5 / "SERVER-TS"; the store stays empty, the ephemeral
broadcast goes out, and the temp id differs from the ObjectId-shaped
"665f00aa12" (which is not of the form `temp-<s>`). -/
theorem send_message_failure_spec_witness :
    ((send_message []
        ⟨"r1", none, some "G", some "user", some "hi", some "CLIENT-TS",
          none, none, none, none⟩
        PersistOutcome.failure 5 "SERVER-TS").1 = []) ∧
    ("temp-" ++ toString (5 : Nat) ≠ "665f00aa12") := by
  have h := send_message_failure_spec []
    ⟨"r1", none, some "G", some "user", some "hi", some "CLIENT-TS",
      none, none, none, none⟩
    5 "SERVER-TS" (by decide)
  refine ⟨h.1, h.2.2 "665f00aa12" ?_⟩
  intro s hs
  have hd := congrArg (fun t : String => t.data.head?) hs
  simp only at hd
  rw [show ("temp-" ++ s).data = ("temp-" : String).data ++ s.data
    from rfl] at hd
  rw [show ("temp-" : String).data = ['t', 'e', 'm', 'p', '-']
    from rfl] at hd
  simp at hd

/-- Counterexample to C8 as stated: a successful `create_room` whose
draft carries no members persists the room with an empty members list —
the owner is not recorded as a member at all, let alone as sole member
with role owner — and stores the client-supplied code "777777" rather
than a freshly generated one. -/
theorem create_room_members_counterexample :
    (create_room [] "id1" "inv1"
        ⟨"myroom", "777777", some "o@x", true, none, none, none⟩).2 =
      [{ id := "id1", name := "myroom", code := "777777"
         ownerId := "o@x", allowAI := true, inviteLinkId := "inv1"
         inviteLink := "inv1", members := [] }] := by
  decide

/-- C8 (amended). For every successful `create_room`, the persisted room
records the client-supplied members list (empty when the draft has none)
— the owner is not automatically inserted as a member — together with the
client-supplied code; the invite-link id is the client-supplied one when
present, otherwise the freshly generated one (which also serves as the
invite link when the draft has none). -/
theorem create_room_persists_client_fields (store : List Room)
    (freshId freshInvite : String) (d : RoomDraft) (owner : String)
    (hown : d.ownerId = some owner)
    (hcnt : ¬ 5 ≤ (store.filter (fun r => r.ownerId == owner)).length) :
    (create_room store freshId freshInvite d).1 = CreateResult.created ∧
    (create_room store freshId freshInvite d).2 =
      store ++
        [{ id := freshId, name := d.name, code := d.code
           ownerId := owner, allowAI := d.allowAI
           inviteLinkId := d.inviteLinkId.getD freshInvite
           inviteLink :=
             d.inviteLink.getD (d.inviteLinkId.getD freshInvite)
           members := d.members.getD [] }] := by
  constructor
  · simp [create_room, hown, if_neg hcnt]
  · simp [create_room, hown, if_neg hcnt]

/-- Witness for the amended C8: a draft carrying its own member list and
invite-link id is persisted exactly as sent, with the client code "42". -/
theorem create_room_persists_client_fields_witness :
    (create_room [] "id9" "gen9"
        ⟨"r", "42", some "o@x", false, some "cli", none,
          some [⟨"m1", "Bob", "member"⟩]⟩).1 = CreateResult.created ∧
    (create_room [] "id9" "gen9"
        ⟨"r", "42", some "o@x", false, some "cli", none,
          some [⟨"m1", "Bob", "member"⟩]⟩).2 =
      [{ id := "id9", name := "r", code := "42", ownerId := "o@x"
         allowAI := false, inviteLinkId := "cli", inviteLink := "cli"
         members := [⟨"m1", "Bob", "member"⟩] }] := by
  have h := create_room_persists_client_fields [] "id9" "gen9"
    ⟨"r", "42", some "o@x", false, some "cli", none,
      some [⟨"m1", "Bob", "member"⟩]⟩
    "o@x" rfl (by decide)
  refine ⟨h.1, ?_⟩
  rw [h.2]
  decide

/-! ### RoomMutationCoordinator: `delete_room`, `rename_room`,
`toggle_room_ai` (server.js 289–341) -/

/-- Events of the room-mutation handlers: the full room-list broadcast,
the `room_ai_toggled` notification, and the `room_ai_toggle_failed`
error. `delete_room` / `rename_room` have no failure event at all. -/
inductive RoomEv where
  | roomListBroadcast
  | aiToggled (roomId : String) (allowAI : Bool)
  | aiToggleFailed (reason : String)
deriving Repr, DecidableEq

/-- The `delete_room` handler (server.js 289–297): unconditional
`Room.findByIdAndDelete(roomId)` and `Message.deleteMany({room: roomId})`
followed by a room-list broadcast; the socket's bound identity is never
consulted. -/
def delete_room (rooms : List Room) (msgs : List Message)
    (sock : SocketData) (roomId : String) :
    (List Room × List Message) × List RoomEv :=
  ((rooms.filter (fun r => r.id != roomId),
    msgs.filter (fun m => m.room != roomId)),
   [RoomEv.roomListBroadcast])

/-- The `rename_room` handler (server.js 299–306): unconditional
`Room.findByIdAndUpdate(roomId, {name})` followed by a room-list
broadcast; the socket's bound identity is never consulted. -/
def rename_room (rooms : List Room) (sock : SocketData)
    (roomId newName : String) : List Room × List RoomEv :=
  (rooms.map (fun r =>
     if r.id = roomId then { r with name := newName } else r),
   [RoomEv.roomListBroadcast])

/-- The `toggle_room_ai` handler (server.js 310–341): silent no-op on a
falsy or unknown room id; `room_ai_toggle_failed` with `NOT_OWNER` unless
the bound email or userId matches the room's `ownerId`; otherwise flip
`allowAI`, notify, and refresh the requester's room list. -/
def toggle_room_ai (rooms : List Room) (sock : SocketData)
    (roomId : String) : List Room × List RoomEv :=
  if roomId = "" then (rooms, [])
  else
    match findRoom rooms roomId with
    | none => (rooms, [])
    | some room =>
      let isOwnerByEmail := match sock.userEmail with
        | some e => room.ownerId == e
        | none => false
      let isOwnerById := match sock.userId with
        | some u => room.ownerId == u
        | none => false
      if !isOwnerByEmail && !isOwnerById then
        (rooms, [RoomEv.aiToggleFailed "NOT_OWNER"])
      else
        (rooms.map (fun r =>
           if r.id = roomId then { r with allowAI := !r.allowAI } else r),
         [RoomEv.aiToggled roomId (!room.allowAI),
          RoomEv.roomListBroadcast])

/-- C9. `delete_room` and `rename_room` mutate the store for every bound
identity — including none at all — with identical results for any two
identities, and emit only the room-list broadcast (no authorization
failure event exists on these paths); `toggle_room_ai`, in contrast,
replies `room_ai_toggle_failed` with `NOT_OWNER` and performs no mutation
whenever the requester's bound email and userId both fail to match the
room's `ownerId`. -/
theorem room_mutation_auth_asymmetry (rooms : List Room)
    (msgs : List Message) (sock sock' : SocketData)
    (roomId newName : String) :
    ((delete_room rooms msgs sock roomId).1.1 =
       rooms.filter (fun r => r.id != roomId) ∧
     (delete_room rooms msgs sock roomId).2 = [RoomEv.roomListBroadcast] ∧
     delete_room rooms msgs sock roomId =
       delete_room rooms msgs sock' roomId) ∧
    ((rename_room rooms sock roomId newName).1 =
       rooms.map (fun r =>
         if r.id = roomId then { r with name := newName } else r) ∧
     (rename_room rooms sock roomId newName).2 =
       [RoomEv.roomListBroadcast] ∧
     rename_room rooms sock roomId newName =
       rename_room rooms sock' roomId newName) ∧
    (∀ room, roomId ≠ "" → findRoom rooms roomId = some room →
      (∀ e, sock.userEmail = some e → room.ownerId ≠ e) →
      (∀ u, sock.userId = some u → room.ownerId ≠ u) →
      toggle_room_ai rooms sock roomId =
        (rooms, [RoomEv.aiToggleFailed "NOT_OWNER"])) := by
  refine ⟨⟨rfl, rfl, rfl⟩, ⟨rfl, rfl, rfl⟩, ?_⟩
  intro room hk hfind hemail huid
  have he : (match sock.userEmail with
      | some e => room.ownerId == e
      | none => false) = false := by
    rcases h : sock.userEmail with _ | e
    · rfl
    · simpa using hemail e h
  have hu : (match sock.userId with
      | some u => room.ownerId == u
      | none => false) = false := by
    rcases h : sock.userId with _ | u
    · rfl
    · simpa using huid u h
  simp [toggle_room_ai, hk, hfind, he, hu]

/-- Witness for C9: an unrelated identity ("m@x"/"mallory") deletes and
renames the room owned by "own@x" without any failure event, while its
`toggle_room_ai` on the same room fails with `NOT_OWNER` and mutates
nothing. -/
theorem room_mutation_auth_asymmetry_witness :
    ((delete_room [⟨"r1", "room", "42", "own@x", true, "i", "i", []⟩] []
        ⟨some "mallory", some "m@x"⟩ "r1").1.1 = []) ∧
    ((rename_room [⟨"r1", "room", "42", "own@x", true, "i", "i", []⟩]
        ⟨some "mallory", some "m@x"⟩ "r1" "stolen").1 =
      [⟨"r1", "stolen", "42", "own@x", true, "i", "i", []⟩]) ∧
    (toggle_room_ai [⟨"r1", "room", "42", "own@x", true, "i", "i", []⟩]
        ⟨some "mallory", some "m@x"⟩ "r1" =
      ([⟨"r1", "room", "42", "own@x", true, "i", "i", []⟩],
       [RoomEv.aiToggleFailed "NOT_OWNER"])) := by
  have h := room_mutation_auth_asymmetry
    [⟨"r1", "room", "42", "own@x", true, "i", "i", []⟩] []
    ⟨some "mallory", some "m@x"⟩ ⟨none, none⟩ "r1" "stolen"
  refine ⟨?_, ?_, ?_⟩
  · rw [h.1.1]
    decide
  · rw [h.2.1.1]
    decide
  · exact h.2.2 ⟨"r1", "room", "42", "own@x", true, "i", "i", []⟩
      (by decide) (by decide)
      (fun e he => by
        cases he
        decide)
      (fun u hu => by
        cases hu
        decide)

/-- C10. `delete_room` removes the room document and cascades to the
message store: a message survives iff it was there before and belongs to
a different room — every message of the deleted room is deleted, and no
message of any other room is affected; the room itself is gone from the
room store. -/
theorem delete_room_cascades_messages (rooms : List Room)
    (msgs : List Message) (sock : SocketData) (roomId : String)
    (m : Message) (r : Room) :
    (m ∈ (delete_room rooms msgs sock roomId).1.2 ↔
      m ∈ msgs ∧ m.room ≠ roomId) ∧
    (r ∈ (delete_room rooms msgs sock roomId).1.1 ↔
      r ∈ rooms ∧ r.id ≠ roomId) := by
  constructor
  · simp [delete_room, List.mem_filter]
  · simp [delete_room, List.mem_filter]
